import Mathlib

/-!
Verification of the polybotz market-surveillance core against its
natural-language specification.

The development is a shallow embedding of the Python sources:
* `src/statistics.py` — rolling windows, median, MAD, MAD-scaled z-score;
* `src/detector.py`   — cooldown manager, spike / liquidity / z-score / MAD /
  closed-market detectors;
* `src/poller.py`     — event-snapshot parsing and price reconciliation;
* `src/main.py`       — the per-cycle event-map maintenance.

Numbers (Python floats) are modelled as rationals `ℚ`; wall-clock instants
(`datetime.now()`) become explicit `now : ℚ` parameters threaded to each
operation that reads the clock.  Python code that can raise an uncaught
exception is modelled in an `Except PyErr` monad; code whose exceptions are
caught and turned into defaults returns `Option`.
-/

namespace Polybotz

/-! ## Statistics core (`src/statistics.py`) -/

/-- One element of a rolling window: a timestamped value
(`Observation` in `statistics.py`). -/
structure Observation where
  timestamp : ℚ
  value : ℚ
  deriving DecidableEq, Repr

/-- Insert a value into an already sorted list, keeping it sorted.
Helper for `pySort`. -/
def insertSorted (x : ℚ) : List ℚ → List ℚ
  | [] => [x]
  | y :: ys => if x ≤ y then x :: y :: ys else y :: insertSorted x ys

/-- Sorting of a list of numbers; models Python's `sorted` as used by
`statistics.median` (any correct stable sort yields the same list on
numbers). -/
def pySort : List ℚ → List ℚ
  | [] => []
  | x :: xs => insertSorted x (pySort xs)

/-- Python's `statistics.median`: sort, take the middle element for odd
length, the average of the two middle elements for even length.  The
library raises on an empty list; every caller in the source guards
against that, so the empty case here returns an (unused) default. -/
def pyMedian (xs : List ℚ) : ℚ :=
  if xs.length % 2 = 1 then (pySort xs).getD (xs.length / 2) 0
  else ((pySort xs).getD (xs.length / 2 - 1) 0 + (pySort xs).getD (xs.length / 2) 0) / 2

/-- `calculate_mad` from `statistics.py`: the median of absolute
deviations from the median, and `0` for an empty list. -/
def calculate_mad (values : List ℚ) : ℚ :=
  if values = [] then 0
  else pyMedian (values.map (fun x => |x - pyMedian values|))

/-- `calculate_zscore_mad` from `statistics.py`: the MAD-scaled z-score
`(current − median) / (1.4826 × MAD)`, and `None` when the list is empty
or its MAD is zero. -/
def calculate_zscore_mad (current : ℚ) (values : List ℚ) : Option ℚ :=
  if values = [] then none
  else if calculate_mad values = 0 then none
  else some ((current - pyMedian values) / (1.4826 * calculate_mad values))

/-! ## Rolling windows (`RollingWindow` in `src/statistics.py`) -/

/-- `RollingWindow`: a duration-bounded deque of observations with a
minimum observation count for validity.  The deque is a list, oldest
first. -/
structure RollingWindow where
  duration : ℚ
  min_observations : ℕ := 30
  observations : List Observation := []
  deriving DecidableEq, Repr

namespace RollingWindow

/-- `RollingWindow._trim`: pop observations from the head while their
timestamp is strictly before `now − duration`. -/
def trim (w : RollingWindow) (now : ℚ) : RollingWindow :=
  { w with observations :=
      w.observations.dropWhile (fun o => o.timestamp < now - w.duration) }

/-- `RollingWindow.add`: append an observation, then trim against the
current wall time `now` (the Python code timestamps with an explicit
argument but always trims against `datetime.now()`). -/
def add (w : RollingWindow) (value : ℚ) (timestamp : ℚ) (now : ℚ) : RollingWindow :=
  trim { w with observations := w.observations ++ [⟨timestamp, value⟩] } now

/-- `RollingWindow.values`: trim against the wall clock, then return the
remaining values in order. -/
def values (w : RollingWindow) (now : ℚ) : List ℚ :=
  (w.trim now).observations.map Observation.value

/-- `RollingWindow.median` property: `None` when no value remains after
trimming. -/
def median (w : RollingWindow) (now : ℚ) : Option ℚ :=
  let vals := w.values now
  if vals.length < 1 then none else some (pyMedian vals)

/-- `RollingWindow.mad` property: `None` when no value remains after
trimming. -/
def mad (w : RollingWindow) (now : ℚ) : Option ℚ :=
  let vals := w.values now
  if vals.length < 1 then none else some (calculate_mad vals)

/-- `RollingWindow.is_valid`: compares the length of the raw deque —
without trimming — against `min_observations`. -/
def is_valid (w : RollingWindow) : Bool :=
  w.min_observations ≤ w.observations.length

end RollingWindow

/-- Modelled from the spec: the number of non-expired observations of a
window at time `now`, i.e. entries with `now − timestamp ≤ duration`.
This is the claim-side notion that `is_valid` is compared against. -/
def specInWindowCount (w : RollingWindow) (now : ℚ) : ℕ :=
  (w.observations.filter (fun o => now - o.timestamp ≤ w.duration)).length

/-! ## Data model (`src/models.py`) -/

/-- `MonitoredMarket` from `models.py`: one outcome of one market of an
event, with the schema-typed fields the dataclass declares. -/
structure MonitoredMarket where
  id : String
  question : String
  outcome : String
  current_price : Option ℚ := none
  previous_price : Option ℚ := none
  is_closed : Bool := false
  volume_24h : Option ℚ := none
  liquidity : Option ℚ := none
  lvr : Option ℚ := none
  clob_token_id : Option String := none
  deriving DecidableEq, Repr

/-- `MonitoredEvent` from `models.py`. -/
structure MonitoredEvent where
  slug : String
  name : String
  markets : List MonitoredMarket := []
  last_updated : Option ℚ := none
  deriving DecidableEq, Repr

/-- `MarketStatistics` from `models.py`: four rolling windows per token. -/
structure MarketStatistics where
  market_id : String
  volume_1h : RollingWindow
  volume_4h : RollingWindow
  price_1h : RollingWindow
  price_4h : RollingWindow
  last_updated : Option ℚ := none
  deriving DecidableEq, Repr

/-- `CooldownEntry` from `models.py`. -/
structure CooldownEntry where
  key : String
  last_alert_time : ℚ
  last_zscore : ℚ
  deriving DecidableEq, Repr

/-- `SpikeAlert` from `models.py`. -/
structure SpikeAlert where
  event_name : String
  market_question : String
  outcome : String
  price_before : ℚ
  price_after : ℚ
  change_percent : ℚ
  direction : String
  detected_at : ℚ
  deriving DecidableEq, Repr

/-- `LiquidityWarning` from `models.py`.  `volume_24h` and `liquidity`
are copied from the (optional) market fields, hence `Option`. -/
structure LiquidityWarning where
  event_name : String
  market_question : String
  outcome : String
  price_before : ℚ
  price_after : ℚ
  change_percent : ℚ
  direction : String
  lvr : ℚ
  health_status : String
  volume_24h : Option ℚ
  liquidity : Option ℚ
  detected_at : ℚ
  deriving DecidableEq, Repr

/-- `ZScoreAlert` from `models.py`.  `median` and `mad` are copied from
the window properties, which are optional. -/
structure ZScoreAlert where
  market_id : String
  metric : String
  window : String
  current_value : ℚ
  median : Option ℚ
  mad : Option ℚ
  zscore : ℚ
  threshold : ℚ
  detected_at : ℚ
  event_name : Option String := none
  outcome : Option String := none
  deriving DecidableEq, Repr

/-- `MADAlert` from `models.py`. -/
structure MADAlert where
  market_id : String
  metric : String
  window : String
  current_value : ℚ
  median : Option ℚ
  mad : Option ℚ
  multiplier : ℚ
  threshold_multiplier : ℚ
  detected_at : ℚ
  event_name : Option String := none
  outcome : Option String := none
  deriving DecidableEq, Repr

/-- `ClosedEventAlert` from `models.py`. -/
structure ClosedEventAlert where
  event_name : String
  event_slug : String
  market_question : String
  outcome : String
  final_price : Option ℚ
  detected_at : ℚ
  deriving DecidableEq, Repr

/-! ## Cooldown manager (`CooldownManager` in `src/detector.py`) -/

/-- `CooldownManager`: suppression state keyed by
`"market_id:metric:window"` strings.  The entries dict is modelled as an
association list with unique keys (a Python dict invariant). -/
structure CooldownManager where
  entries : List (String × CooldownEntry) := []
  cooldown_minutes : ℚ := 30
  escalation_threshold : ℚ := 1
  deriving DecidableEq, Repr

namespace CooldownManager

/-- `CooldownManager.should_alert`: fire when cooldown is disabled, the
key is new, the cooldown has elapsed, or the score escalated by at least
`escalation_threshold`.  Timestamps are in seconds; `elapsed` is
converted to minutes as in the source. -/
def should_alert (cm : CooldownManager) (now : ℚ) (key : String) (current_zscore : ℚ) : Bool :=
  if cm.cooldown_minutes = 0 then true
  else
    match cm.entries.lookup key with
    | none => true
    | some entry =>
      let elapsed := (now - entry.last_alert_time) / 60
      if cm.cooldown_minutes ≤ elapsed then true
      else if cm.escalation_threshold ≤ current_zscore - entry.last_zscore then true
      else false

/-- `CooldownManager.record_alert`: upsert the entry for `key`. -/
def record_alert (cm : CooldownManager) (now : ℚ) (key : String) (zscore : ℚ) : CooldownManager :=
  let entry : CooldownEntry := { key := key, last_alert_time := now, last_zscore := zscore }
  if (cm.entries.lookup key).isSome then
    { cm with entries := cm.entries.map (fun p => if p.1 = key then (key, entry) else p) }
  else
    { cm with entries := cm.entries ++ [(key, entry)] }

/-- `CooldownManager.cleanup_stale`: when the cooldown is enabled,
collect the keys whose elapsed minutes exceed `2 × cooldown_minutes` and
delete them; when `cooldown_minutes = 0` the method returns immediately. -/
def cleanup_stale (cm : CooldownManager) (now : ℚ) : CooldownManager :=
  if cm.cooldown_minutes = 0 then cm
  else
    let stale_threshold := cm.cooldown_minutes * 2
    let stale_keys :=
      (cm.entries.filter
        (fun p => stale_threshold < (now - p.2.last_alert_time) / 60)).map Prod.fst
    { cm with entries := cm.entries.filter (fun p => ¬ stale_keys.contains p.1) }

end CooldownManager

/-! ## Detectors (`src/detector.py`) -/

/-- `calculate_lvr` from `detector.py`: `volume_24h / liquidity`, and
`None` when either input is missing or liquidity is not positive. -/
def calculate_lvr (volume_24h liquidity : Option ℚ) : Option ℚ :=
  match liquidity with
  | none => none
  | some l =>
    if l ≤ 0 then none
    else
      match volume_24h with
      | none => none
      | some v => some (v / l)

/-- `classify_lvr_health` from `detector.py`. -/
def classify_lvr_health (lvr : ℚ) : String :=
  if lvr < 2 then "Healthy"
  else if lvr < 10 then "Elevated"
  else "High Risk"

/-- `detect_spike` from `detector.py`: skip closed markets, first polls,
missing current prices and zero previous prices; otherwise alert when
the unsigned percentage change reaches `threshold`. -/
def detect_spike (now : ℚ) (market : MonitoredMarket) (threshold : ℚ) : Option SpikeAlert :=
  if market.is_closed then none
  else
    match market.previous_price, market.current_price with
    | some prev, some cur =>
      if prev = 0 then none
      else
        let change := cur - prev
        let change_percent := |change / prev| * 100
        if change_percent < threshold then none
        else
          some { event_name := ""
                 market_question := market.question
                 outcome := market.outcome
                 price_before := prev
                 price_after := cur
                 change_percent := change_percent
                 direction := if 0 < change then "up" else "down"
                 detected_at := now }
    | _, _ => none

/-- `detect_all_spikes` from `detector.py`: run `detect_spike` over all
markets of all events, filling in the event name. -/
def detect_all_spikes (now : ℚ) (events : List MonitoredEvent) (threshold : ℚ) :
    List SpikeAlert :=
  events.flatMap (fun event =>
    event.markets.filterMap (fun market =>
      (detect_spike now market threshold).map (fun s => { s with event_name := event.name })))

/-- `detect_liquidity_warning` from `detector.py`: given a spike already
detected for `market`, warn iff the market's `lvr` is present and
strictly exceeds `lvr_threshold`. -/
def detect_liquidity_warning (now : ℚ) (market : MonitoredMarket) (spike : SpikeAlert)
    (lvr_threshold : ℚ) (event_name : String) : Option LiquidityWarning :=
  match market.lvr with
  | none => none
  | some l =>
    if l ≤ lvr_threshold then none
    else
      some { event_name := event_name
             market_question := market.question
             outcome := market.outcome
             price_before := spike.price_before
             price_after := spike.price_after
             change_percent := spike.change_percent
             direction := spike.direction
             lvr := l
             health_status := classify_lvr_health l
             volume_24h := market.volume_24h
             liquidity := market.liquidity
             detected_at := now }

/-- The market lookup built by `detect_all_liquidity_warnings`: a dict
keyed by `(event.name, question, outcome)` over all markets of all
events; on duplicate keys the last insertion wins. -/
def market_lookup (events : List MonitoredEvent) (key : String × String × String) :
    Option (MonitoredMarket × String) :=
  ((events.flatMap (fun event =>
      event.markets.map (fun m =>
        ((event.name, m.question, m.outcome), (m, event.name))))).reverse).lookup key

/-- `detect_all_liquidity_warnings` from `detector.py`: for each spike
of the cycle, look its market up by `(event_name, question, outcome)`
and apply `detect_liquidity_warning`. -/
def detect_all_liquidity_warnings (now : ℚ) (events : List MonitoredEvent)
    (spikes : List SpikeAlert) (lvr_threshold : ℚ) : List LiquidityWarning :=
  spikes.filterMap (fun spike =>
    match market_lookup events (spike.event_name, spike.market_question, spike.outcome) with
    | none => none
    | some (market, event_name) =>
      detect_liquidity_warning now market spike lvr_threshold event_name)

/-- The `window_map` dispatch shared by `detect_zscore_alert` and
`detect_mad_alert`. -/
def window_map (stats : MarketStatistics) (metric window : String) : Option RollingWindow :=
  match metric, window with
  | "volume", "1h" => some stats.volume_1h
  | "volume", "4h" => some stats.volume_4h
  | "price", "1h" => some stats.price_1h
  | "price", "4h" => some stats.price_4h
  | _, _ => none

/-- `detect_zscore_alert` from `detector.py`: over the selected window,
require validity and a non-empty trimmed value list, take the most
recent value, and alert when its MAD-scaled z-score exists and strictly
exceeds `threshold` in absolute value. -/
def detect_zscore_alert (now : ℚ) (stats : MarketStatistics) (threshold : ℚ)
    (metric window : String) : Option ZScoreAlert :=
  match window_map stats metric window with
  | none => none
  | some rolling_window =>
    if ¬ rolling_window.is_valid then none
    else if rolling_window.values now = [] then none
    else
      match calculate_zscore_mad ((rolling_window.values now).getLastD 0)
          (rolling_window.values now) with
      | none => none
      | some zscore =>
        if |zscore| ≤ threshold then none
        else
          some { market_id := stats.market_id
                 metric := metric
                 window := window
                 current_value := (rolling_window.values now).getLastD 0
                 median := rolling_window.median now
                 mad := rolling_window.mad now
                 zscore := zscore
                 threshold := threshold
                 detected_at := now }

/-- `detect_mad_alert` from `detector.py`: over the selected window,
require validity, a non-empty trimmed value list, a present median and
a non-zero MAD, and alert when `|current − median| / mad` strictly
exceeds `multiplier`. -/
def detect_mad_alert (now : ℚ) (stats : MarketStatistics) (multiplier : ℚ)
    (metric window : String) : Option MADAlert :=
  match window_map stats metric window with
  | none => none
  | some rolling_window =>
    if ¬ rolling_window.is_valid then none
    else if rolling_window.values now = [] then none
    else
      match rolling_window.median now, rolling_window.mad now with
      | some median_val, some mad_val =>
        if mad_val = 0 then none
        else if |(rolling_window.values now).getLastD 0 - median_val| / mad_val ≤ multiplier
          then none
        else
          some { market_id := stats.market_id
                 metric := metric
                 window := window
                 current_value := (rolling_window.values now).getLastD 0
                 median := some median_val
                 mad := some mad_val
                 multiplier := |(rolling_window.values now).getLastD 0 - median_val| / mad_val
                 threshold_multiplier := multiplier
                 detected_at := now }
      | _, _ => none

/-! ## Closed-market transition detector (`detect_closed_markets` in
`src/detector.py`)

The detector consumes the raw per-slug API snapshot before any state
mutation.  Snapshot markets are taken here in the feed schema's types:
a string `question`, a boolean `closed` flag and a decoded numeric
`outcomePrices` array (the dynamically-typed parse boundary itself is
modelled separately with `PyVal` below). -/

/-- One market of the raw event snapshot, in schema types.  A missing or
empty `outcomePrices` field is the empty list — both are falsy in the
source's `if outcome_prices:` test and yield no final price. -/
structure ApiMarket where
  question : String
  closed : Bool
  outcomePrices : List ℚ := []
  deriving DecidableEq, Repr

/-- The `api_market_lookup` dict built per event: keyed by question,
last insertion wins. -/
def api_market_lookup (api_markets : List ApiMarket) (question : String) : Option ApiMarket :=
  api_markets.reverse.find? (fun m => m.question = question)

/-- The final-price extraction of `detect_closed_markets`: when the
snapshot's outcome-prices array is non-empty, index it by outcome
(`yes → 0`, anything else → `1`); an out-of-range index leaves the final
price absent. -/
def final_price_of (market : MonitoredMarket) (api_market : ApiMarket) : Option ℚ :=
  if api_market.outcomePrices = [] then none
  else api_market.outcomePrices.get? (if market.outcome.toLower = "yes" then 0 else 1)

/-- The alerts produced for one event by `detect_closed_markets`: one
`ClosedEventAlert` per existing market that is matched by question in
the snapshot and transitions from open to closed. -/
def closed_alerts_for (now : ℚ) (slug : String) (event : MonitoredEvent)
    (api_markets : List ApiMarket) : List ClosedEventAlert :=
  event.markets.filterMap (fun market =>
    match api_market_lookup api_markets market.question with
    | none => none
    | some api_market =>
      if api_market.closed ∧ ¬ market.is_closed then
        some { event_name := event.name
               event_slug := slug
               market_question := market.question
               outcome := market.outcome
               final_price := final_price_of market api_market
               detected_at := now }
      else none)

/-- The `all_closed` flag of `detect_closed_markets`: it starts true and
is cleared only when a market *matched in the snapshot* is open there;
existing markets absent from the snapshot are skipped by `continue` and
leave the flag untouched. -/
def all_closed_for (event : MonitoredEvent) (api_markets : List ApiMarket) : Bool :=
  event.markets.all (fun market =>
    match api_market_lookup api_markets market.question with
    | none => true
    | some api_market => api_market.closed)

/-- `detect_closed_markets` from `detector.py`: over every tracked event
whose slug appears in the snapshot, emit open→closed transition alerts,
and mark the slug for removal when `all_closed` holds and the event has
at least one market. -/
def detect_closed_markets (now : ℚ) (events : List (String × MonitoredEvent))
    (new_data : List (String × List ApiMarket)) :
    List ClosedEventAlert × List String :=
  (events.flatMap (fun p =>
      match new_data.lookup p.1 with
      | none => []
      | some api_markets => closed_alerts_for now p.1 p.2 api_markets),
   events.filterMap (fun p =>
      match new_data.lookup p.1 with
      | none => none
      | some api_markets =>
        if all_closed_for p.2 api_markets ∧ p.2.markets ≠ [] then some p.1 else none))

/-- The event-map maintenance of one poll cycle (`run_poll_cycle` in
`main.py`): the slugs returned by `detect_closed_markets` are deleted
from the events dict, after which the polling step updates the value of
each remaining slug in place (`poll_all_events` never adds or removes a
key); the per-slug value update is abstracted as `upd`. -/
def cycle_remaining_events (now : ℚ) (events : List (String × MonitoredEvent))
    (new_data : List (String × List ApiMarket))
    (upd : String → MonitoredEvent → MonitoredEvent) : List (String × MonitoredEvent) :=
  let slugs_to_remove := (detect_closed_markets now events new_data).2
  (events.filter (fun p => ¬ slugs_to_remove.contains p.1)).map (fun p => (p.1, upd p.1 p.2))

/-! ## Price reconciliation (`update_prices` in `src/poller.py`)

`update_prices` parses the fresh snapshot and reconciles the parsed
markets against the existing event state.  The reconciliation loop is
modelled here over parsed market lists; the parse boundary itself is the
`PyVal` model below. -/

/-- The `existing` dict of `update_prices`: existing markets keyed by
`(m.id, m.outcome)`, last insertion winning on duplicates. -/
def existing_market_lookup (markets : List MonitoredMarket) (key : String × String) :
    Option MonitoredMarket :=
  ((markets.map (fun m => ((m.id, m.outcome), m))).reverse).lookup key

/-- The body of the `update_prices` loop for one parsed market: carry
the prior `current_price` over as `previous_price` when the `(id,
outcome)` key matches an existing market, then recompute `lvr` from the
new volume and liquidity. -/
def reconcile_market (existing : List MonitoredMarket) (nm : MonitoredMarket) :
    MonitoredMarket :=
  let nm1 :=
    match existing_market_lookup existing (nm.id, nm.outcome) with
    | some m => { nm with previous_price := m.current_price }
    | none => nm
  { nm1 with lvr := calculate_lvr nm1.volume_24h nm1.liquidity }

/-- The market-list update of `update_prices`: every parsed new market
is reconciled against the existing markets; the event keeps exactly the
new snapshot's markets. -/
def update_prices_markets (existing new_markets : List MonitoredMarket) :
    List MonitoredMarket :=
  new_markets.map (reconcile_market existing)

/-- `update_prices` at event level: the event's markets are replaced by
the reconciled parsed markets, and its name and timestamp are taken from
the parsed snapshot. -/
def update_prices (event : MonitoredEvent) (new_event : MonitoredEvent) : MonitoredEvent :=
  { event with
    markets := update_prices_markets event.markets new_event.markets
    last_updated := new_event.last_updated
    name := new_event.name }

/-! ## The dynamically-typed parse boundary (`parse_event_response` in
`src/poller.py`)

The event snapshot arrives as an arbitrary decoded JSON document.  To
settle the error-handling claim the parse is modelled over a dynamic
value type with Python's exception behaviour: operations whose failures
the source catches return `Option`; operations whose failures are *not*
caught run in `Except PyErr`.  The two standard-library decoders —
`json.loads` and numeric-string conversion inside `float` — are external
to the repository and enter as oracle parameters `loads` and `oracle`. -/

/-- A decoded JSON / Python value. -/
inductive PyVal where
  | none
  | bool (b : Bool)
  | num (q : ℚ)
  | str (s : String)
  | list (xs : List PyVal)
  | dict (fields : List (String × PyVal))
  deriving Repr

/-- An uncaught Python exception class. -/
inductive PyErr where
  | typeError
  | attributeError
  | keyError
  | indexError
  deriving DecidableEq, Repr

/-- Python truthiness of a value. -/
def pyTruthy : PyVal → Bool
  | .none => false
  | .bool b => b
  | .num q => q ≠ 0
  | .str s => s ≠ ""
  | .list xs => ¬ xs.isEmpty
  | .dict fs => ¬ fs.isEmpty

/-- `dict.get(key, default)` on a dict's field list. -/
def dget (fields : List (String × PyVal)) (key : String) (dflt : PyVal) : PyVal :=
  (fields.lookup key).getD dflt

/-- Python iteration (`for x in v`): lists yield elements, strings yield
one-character strings, dicts yield keys; anything else raises
`TypeError`. -/
def pyIterList : PyVal → Except PyErr (List PyVal)
  | .list xs => .ok xs
  | .str s => .ok (s.toList.map (fun c => .str (String.mk [c])))
  | .dict fs => .ok (fs.map (fun p => .str p.1))
  | _ => .error .typeError

/-- Python `len(v)`: defined for lists, strings and dicts, `TypeError`
otherwise. -/
def pyLen : PyVal → Except PyErr ℕ
  | .list xs => .ok xs.length
  | .str s => .ok s.length
  | .dict fs => .ok fs.length
  | _ => .error .typeError

/-- Python `v[i]` for a natural index. -/
def pyIndex : PyVal → ℕ → Except PyErr PyVal
  | .list xs, i =>
    match xs.get? i with
    | some x => .ok x
    | Option.none => .error .indexError
  | .str s, i =>
    match s.toList.get? i with
    | some c => .ok (.str (String.mk [c]))
    | Option.none => .error .indexError
  | .dict _, _ => .error .keyError
  | _, _ => .error .typeError

/-- Python `float(v)` with its `ValueError` / `TypeError` failures as
`none` (every call site in the parse catches both); numeric strings go
through the conversion oracle. -/
def pyFloat (oracle : String → Option ℚ) : PyVal → Option ℚ
  | .num q => some q
  | .bool b => some (if b then 1 else 0)
  | .str s => oracle s
  | _ => Option.none

/-- Python `str(v)` for the scalar values a token-id slot can hold.  The
exact rendering of non-string scalars is not relied on by any claim. -/
def pyStr : PyVal → String
  | .str s => s
  | .num q => toString q
  | .bool b => if b then "True" else "False"
  | .none => "None"
  | .list _ => ""
  | .dict _ => ""

/-- `_parse_json_field` from `poller.py`: decode a string through
`json.loads` (a decode failure becomes `[]`), pass a list through, and
default anything else to `[]`.  Note that a string decoding to a
non-list value is returned as-is, exactly as in the source. -/
def parse_json_field (loads : String → Option PyVal) : PyVal → PyVal
  | .str s =>
    match loads s with
    | some j => j
    | Option.none => .list []
  | .list xs => .list xs
  | _ => .list []

/-- A parsed market at the dynamic boundary: fields that the source
stores without conversion keep their raw `PyVal`. -/
structure PMarket where
  id : PyVal
  question : PyVal
  outcome : PyVal
  current_price : Option ℚ
  previous_price : Option ℚ
  is_closed : PyVal
  volume_24h : Option ℚ
  liquidity : Option ℚ
  lvr : Option ℚ := Option.none
  clob_token_id : Option String
  deriving Repr

/-- A parsed event at the dynamic boundary. -/
structure PEvent where
  slug : PyVal
  name : PyVal
  markets : List PMarket
  deriving Repr

/-- The exception-propagating `for` loop: map a fallible body over a
list, aborting at the first raised exception. -/
def mapME (f : α → Except PyErr β) : List α → Except PyErr (List β)
  | [] => .ok []
  | x :: xs => (f x).bind (fun y => (mapME f xs).map (fun ys => y :: ys))

/-- The body of the per-outcome loop of `parse_event_response`: index
the decoded prices and token-ids (taking `len` of or indexing a
non-list value raises, as in the source; a failed `float` conversion is
a caught exception and yields `⊥`), then build the market record with
`previous_price = ⊥`. -/
def parseOutcomeEntry (oracle : String → Option ℚ) (mfs : List (String × PyVal))
    (prices clob_token_ids : PyVal) (p : ℕ × PyVal) : Except PyErr PMarket :=
  (pyLen prices).bind (fun prices_len =>
    (if p.1 < prices_len then (pyIndex prices p.1).map (fun pv => pyFloat oracle pv)
     else .ok Option.none).bind (fun price =>
      (pyLen clob_token_ids).bind (fun clob_len =>
        (if p.1 < clob_len then
           (pyIndex clob_token_ids p.1).map (fun cv =>
             if pyTruthy cv then some (pyStr cv) else Option.none)
         else .ok Option.none).map (fun clob =>
          { id := dget mfs "conditionId" (dget mfs "id" (.str ""))
            question := dget mfs "question" (.str "")
            outcome := p.2
            current_price := price
            previous_price := Option.none
            is_closed := dget mfs "closed" (.bool false)
            volume_24h := pyFloat oracle (dget mfs "volume24hr" .none)
            liquidity := pyFloat oracle (dget mfs "liquidityNum" .none)
            lvr := Option.none
            clob_token_id := clob }))))

/-- The per-market body of `parse_event_response`: decode the three
array-or-JSON-string fields, then build one `PMarket` per entry of the
decoded outcomes.  Iterating a non-iterable decoded `outcomes` value
raises, as in the source. -/
def parseMarket (loads : String → Option PyVal) (oracle : String → Option ℚ)
    (market_data : PyVal) : Except PyErr (List PMarket) :=
  match market_data with
  | .dict mfs =>
    (pyIterList (parse_json_field loads (dget mfs "outcomes" (.list [])))).bind
      (fun items =>
        mapME (parseOutcomeEntry oracle mfs
          (parse_json_field loads (dget mfs "outcomePrices" (.list [])))
          (parse_json_field loads (dget mfs "clobTokenIds" (.list []))))
          items.enum)
  | _ => .error .attributeError

/-- `parse_event_response` from `poller.py`: iterate the `markets`
field, parse each market into one entry per outcome, and assemble the
event with its slug and title. -/
def parse_event_response (loads : String → Option PyVal) (oracle : String → Option ℚ)
    (data : PyVal) : Except PyErr PEvent :=
  match data with
  | .dict fs =>
    (pyIterList (dget fs "markets" (.list []))).bind (fun market_items =>
      (mapME (parseMarket loads oracle) market_items).map (fun market_lists =>
        { slug := dget fs "slug" (.str "")
          name := dget fs "title" (.str "")
          markets := market_lists.flatten }))
  | _ => .error .attributeError

/-- The reconciliation loop of `update_prices` at the dynamic boundary,
keyed by the raw `(id, outcome)` values; the existing-market dict enters
as the lookup function `lookupById`. -/
def reconcile_pmarket (lookupById : PyVal × PyVal → Option PMarket) (nm : PMarket) : PMarket :=
  let nm1 :=
    match lookupById (nm.id, nm.outcome) with
    | some m => { nm with previous_price := m.current_price }
    | Option.none => nm
  { nm1 with lvr := calculate_lvr nm1.volume_24h nm1.liquidity }

/-- `update_prices` at the dynamic boundary: parse the raw snapshot and
reconcile; a parse exception propagates and aborts the snapshot
application.  The existing-market dict enters as a lookup function. -/
def update_prices_p (loads : String → Option PyVal) (oracle : String → Option ℚ)
    (lookupById : PyVal × PyVal → Option PMarket)
    (data : PyVal) : Except PyErr (List PMarket) :=
  (parse_event_response loads oracle data).map (fun ev =>
    ev.markets.map (reconcile_pmarket lookupById))

/-! ## Spec-side notions

Definitions in this section render the *claims'* wording (not the
source) and exist to be compared against the source-derived definitions
above. -/

/-- Modelled from the spec: the claimed reconciliation — matching by
`(question, outcome)` (last duplicate winning), a matched new market
takes the matched prior market's `current_price` as `previous_price`,
and an unmatched one keeps `previous_price = ⊥`. -/
def specLookupByQuestionOutcome (markets : List MonitoredMarket) (key : String × String) :
    Option MonitoredMarket :=
  ((markets.map (fun m => ((m.question, m.outcome), m))).reverse).lookup key

/-- Modelled from the spec: the C2 reconciliation contract over given
existing and parsed-new market lists — every reconciled market's
`previous_price` is the `current_price` of the prior market matched by
`(question, outcome)`, or `⊥` when unmatched. -/
def specReconcileByQuestionHolds (existing new_markets : List MonitoredMarket) : Prop :=
  ∀ nm ∈ update_prices_markets existing new_markets,
    nm.previous_price =
      (specLookupByQuestionOutcome existing (nm.question, nm.outcome)).bind
        MonitoredMarket.current_price

/-- Modelled from the spec: "all of the event's markets are closed in
the new snapshot" — every market of the event is matched by question in
the snapshot and carries `closed = true` there. -/
def specAllMarketsClosedInSnapshot (event : MonitoredEvent)
    (api_markets : List ApiMarket) : Prop :=
  ∀ m ∈ event.markets, ∃ am, api_market_lookup api_markets m.question = some am ∧
    am.closed = true

/-- Modelled from the spec: the claimed effect of `cleanup_stale` — keep
exactly the entries whose elapsed minutes are at most twice the cooldown
duration, for any `cooldown_duration ≥ 0`. -/
def specCleanupStaleHolds (cm : CooldownManager) (now : ℚ) : Prop :=
  (cm.cleanup_stale now).entries =
    cm.entries.filter (fun p => (now - p.2.last_alert_time) / 60 ≤ 2 * cm.cooldown_minutes)

/-! ## Concrete instances used by the counterexamples and witnesses -/

/-- A window with one expired observation: duration 1, a single entry at
time 0, observed at time 10. -/
def windowC1 : RollingWindow :=
  { duration := 1, min_observations := 1, observations := [⟨0, 5⟩] }

/-- Market statistics whose windows are all empty (fresh token). -/
def statsC1 : MarketStatistics :=
  { market_id := "t"
    volume_1h := { duration := 3600 }
    volume_4h := { duration := 14400 }
    price_1h := { duration := 3600 }
    price_4h := { duration := 14400 } }

/-- Prior state for the C2 counterexample: one market with condition id
`"a"`. -/
def existingC2 : List MonitoredMarket :=
  [{ id := "a", question := "Q", outcome := "Yes", current_price := some (1/2) }]

/-- Incoming parsed snapshot for the C2 counterexample: same question
and outcome, but condition id `"b"`. -/
def newC2 : List MonitoredMarket :=
  [{ id := "b", question := "Q", outcome := "Yes" }]

/-- Tracked events for the C3 counterexample: one event with one open
market. -/
def eventsC3 : List (String × MonitoredEvent) :=
  [("e", { slug := "e", name := "E",
           markets := [{ id := "m", question := "Q", outcome := "Yes" }] })]

/-- Snapshot for the C3 counterexample: the slug is present but its
market list is empty, so no market of the event is closed there. -/
def newDataC3 : List (String × List ApiMarket) :=
  [("e", [])]

/-- Tracked events for the C3 witness. -/
def eventsC3w : List (String × MonitoredEvent) :=
  [("ew", { slug := "ew", name := "EW",
            markets := [{ id := "m", question := "Q", outcome := "Yes" }] })]

/-- Snapshot market for the C3 witness: the question closes at price 1. -/
def amC3w : ApiMarket := { question := "Q", closed := true, outcomePrices := [1] }

/-- Snapshot for the C3 witness. -/
def newDataC3w : List (String × List ApiMarket) :=
  [("ew", [amC3w])]

/-- Market for the C4 witness: LVR 10 against a threshold of 8. -/
def marketC4 : MonitoredMarket :=
  { id := "m", question := "Q", outcome := "Yes", current_price := some 1,
    previous_price := some 2, volume_24h := some 100, liquidity := some 10,
    lvr := some 10 }

/-- Events for the C4 witness. -/
def eventsC4 : List MonitoredEvent :=
  [{ slug := "e", name := "E", markets := [marketC4] }]

/-- Spike of the cycle for the C4 witness. -/
def spikeC4 : SpikeAlert :=
  { event_name := "E", market_question := "Q", outcome := "Yes", price_before := 2,
    price_after := 1, change_percent := 50, direction := "down", detected_at := 0 }

/-- The spec's spike scenario: previous 0.50, current 0.60, open. -/
def marketC6 : MonitoredMarket :=
  { id := "m", question := "Q", outcome := "Yes"
    current_price := some (3/5), previous_price := some (1/2) }

/-- A cooldown manager with cooldown disabled holding one five-minute-old
entry. -/
def cmC8 : CooldownManager :=
  { entries := [("k", { key := "k", last_alert_time := 0, last_zscore := 4 })]
    cooldown_minutes := 0
    escalation_threshold := 1 }

/-- Prior state for C9: one market already closed. -/
def existingC9 : List MonitoredMarket :=
  [{ id := "m", question := "Q", outcome := "Yes", current_price := some 1,
     is_closed := true }]

/-- Parsed snapshot for the C9 counterexample: the same `(id, outcome)`
reported open again. -/
def newC9 : List MonitoredMarket :=
  [{ id := "m", question := "Q", outcome := "Yes", current_price := some 1,
     is_closed := false }]

/-- Parsed snapshot for the C9 witness: the same market still reported
closed. -/
def newC9closed : List MonitoredMarket :=
  [{ id := "m", question := "Q", outcome := "Yes", current_price := some 1,
     is_closed := true }]

/-- A decode oracle on which every string fails (`json.loads` raising on
every payload of interest). -/
def loadsFail : String → Option PyVal := fun _ => Option.none

/-- A numeric-conversion oracle on which every string fails. -/
def oracleFail : String → Option ℚ := fun _ => Option.none

/-- An event-snapshot document whose `markets` field is the number 3. -/
def docC10bad : PyVal := .dict [("markets", .num 3)]

/-- The decode oracle for the C10 witness: the outcomes payload decodes
to the two-outcome array, every other payload fails. -/
def loadsC10 : String → Option PyVal := fun s =>
  if s = "[\"Yes\", \"No\"]" then some (.list [.str "Yes", .str "No"]) else Option.none

/-- A well-shaped event-snapshot document with a JSON-string outcomes
field, a malformed outcome-prices string, a malformed string-encoded
volume and a numeric liquidity. -/
def docC10good : PyVal := .dict
  [("slug", .str "e"), ("title", .str "T"),
   ("markets", .list [ .dict [
      ("conditionId", .str "c1"),
      ("question", .str "Q"),
      ("outcomes", .str "[\"Yes\", \"No\"]"),
      ("outcomePrices", .str "oops"),
      ("clobTokenIds", .list [.str "t1", .str "t2"]),
      ("closed", .bool false),
      ("volume24hr", .str "notanumber"),
      ("liquidityNum", .num 50) ] ])]

/-! ## Helper lemmas -/

theorem length_insertSorted (x : ℚ) (l : List ℚ) :
    (insertSorted x l).length = l.length + 1 := by
  induction l with
  | nil => rfl
  | cons y ys ih =>
    by_cases h : x ≤ y <;> simp [insertSorted, h, ih]

theorem mem_insertSorted {y x : ℚ} {l : List ℚ} :
    y ∈ insertSorted x l ↔ y = x ∨ y ∈ l := by
  induction l with
  | nil => simp [insertSorted]
  | cons z zs ih =>
    by_cases h : x ≤ z
    · simp [insertSorted, h]
    · simp [insertSorted, h, ih]; tauto

theorem length_pySort (l : List ℚ) : (pySort l).length = l.length := by
  induction l with
  | nil => rfl
  | cons x xs ih => simp [pySort, length_insertSorted, ih]

theorem mem_pySort {y : ℚ} {l : List ℚ} : y ∈ pySort l ↔ y ∈ l := by
  induction l with
  | nil => simp [pySort]
  | cons x xs ih => simp [pySort, mem_insertSorted, ih]

theorem getD_of_all_eq {c : ℚ} : ∀ (l : List ℚ) (i : ℕ), (∀ x ∈ l, x = c) →
    i < l.length → l.getD i 0 = c
  | [], i, _, hi => by simp at hi
  | x :: xs, 0, h, _ => h x (by simp)
  | x :: xs, i + 1, h, hi => by
    simpa using getD_of_all_eq xs i (fun y hy => h y (by simp [hy])) (by simpa using hi)

theorem pyMedian_const {xs : List ℚ} {c : ℚ} (h : ∀ x ∈ xs, x = c) (hne : xs ≠ []) :
    pyMedian xs = c := by
  have hn : 0 < xs.length := List.length_pos.mpr hne
  have hall : ∀ x ∈ pySort xs, x = c := fun x hx => h x (mem_pySort.mp hx)
  have hlen : (pySort xs).length = xs.length := length_pySort xs
  unfold pyMedian
  by_cases hodd : xs.length % 2 = 1
  · rw [if_pos hodd]
    exact getD_of_all_eq _ _ hall (by omega)
  · rw [if_neg hodd]
    have h2 : 2 ≤ xs.length := by omega
    rw [getD_of_all_eq _ _ hall (by omega), getD_of_all_eq _ _ hall (by omega)]
    ring

theorem calculate_mad_const {xs : List ℚ} {c : ℚ} (h : ∀ x ∈ xs, x = c) :
    calculate_mad xs = 0 := by
  rcases eq_or_ne xs [] with hxs | hxs
  · simp [calculate_mad, hxs]
  · unfold calculate_mad
    rw [if_neg hxs, pyMedian_const h hxs]
    refine pyMedian_const (fun y hy => ?_) (by simpa using hxs)
    obtain ⟨x, hx, rfl⟩ := List.mem_map.mp hy
    rw [h x hx]; simp

theorem calculate_zscore_mad_const {xs : List ℚ} {c : ℚ} (h : ∀ x ∈ xs, x = c)
    (current : ℚ) : calculate_zscore_mad current xs = none := by
  rcases eq_or_ne xs [] with hxs | hxs
  · simp [calculate_zscore_mad, hxs]
  · unfold calculate_zscore_mad
    rw [if_neg hxs]
    simp [calculate_mad_const h]

theorem getLastD_mem {α : Type} : ∀ (l : List α) (d : α), l ≠ [] → l.getLastD d ∈ l
  | [x], _, _ => by simp
  | x :: y :: ys, d, _ => by
    have h := getLastD_mem (y :: ys) x (by simp)
    simpa [List.getLastD_cons] using Or.inr h

/-- A `lookup` hit is a member of the association list. -/
theorem mem_of_lookup {α β : Type} [BEq α] [LawfulBEq α] {k : α} {v : β}
    {l : List (α × β)} (h : l.lookup k = some v) : (k, v) ∈ l := by
  induction l with
  | nil => simp [List.lookup] at h
  | cons p ps ih =>
    rw [List.lookup] at h
    rcases hb : (k == p.1) with _ | _
    · rw [hb] at h
      exact List.mem_cons_of_mem _ (ih h)
    · rw [hb] at h
      injection h with hv
      have hk : k = p.1 := by simpa using hb
      have hp : (k, v) = p := by rw [hk, ← hv]
      rw [hp]
      exact List.mem_cons_self _ _

/-- A `market_lookup` hit for a key carries the keyed market itself: the
stored event name is the key's event name and the market's question and
outcome are the key's. -/
theorem market_lookup_fields {events : List MonitoredEvent}
    {key : String × String × String} {m : MonitoredMarket} {en : String}
    (h : market_lookup events key = some (m, en)) :
    en = key.1 ∧ m.question = key.2.1 ∧ m.outcome = key.2.2 := by
  unfold market_lookup at h
  have hmem := List.mem_reverse.mp (mem_of_lookup h)
  obtain ⟨event, _, hpair⟩ := List.mem_flatMap.mp hmem
  obtain ⟨m', _, heq⟩ := List.mem_map.mp hpair
  have h1 := congrArg Prod.fst heq
  have h2 := congrArg Prod.snd heq
  simp only [Prod.mk.injEq] at h1 h2
  obtain ⟨hm', hen⟩ := h2
  subst hm'
  subst hen
  refine ⟨?_, ?_, ?_⟩
  · rw [← h1]
  · rw [← h1]
  · rw [← h1]

/-- `Except.bind` on a success reduces to the continuation. -/
theorem except_bind_ok {α β : Type} (x : α) (f : α → Except PyErr β) :
    (Except.ok x).bind f = f x := rfl

/-- `Except.map` on a success applies the function. -/
theorem except_map_ok {α β : Type} (x : α) (f : α → β) :
    Except.map f (Except.ok x : Except PyErr α) = .ok (f x) := rfl

/-- `mapME` succeeds, with every element of the result satisfying `P`,
as soon as the body succeeds with `P` on every input. -/
theorem mapME_ok {α β : Type} (f : α → Except PyErr β) (P : β → Prop) :
    ∀ l : List α, (∀ x ∈ l, ∃ y, f x = .ok y ∧ P y) →
      ∃ ys, mapME f l = .ok ys ∧ ∀ y ∈ ys, P y := by
  intro l
  induction l with
  | nil => exact fun _ => ⟨[], rfl, by simp⟩
  | cons x xs ih =>
    intro h
    obtain ⟨y, hy, hPy⟩ := h x (by simp)
    obtain ⟨ys, hys, hPys⟩ := ih (fun z hz => h z (by simp [hz]))
    refine ⟨y :: ys, ?_, ?_⟩
    · unfold mapME
      rw [hy, hys]
      rfl
    · intro z hz
      rcases List.mem_cons.mp hz with rfl | hz2
      · exact hPy
      · exact hPys z hz2

/-- An in-range index into a list value succeeds. -/
theorem pyIndex_list_ok {xs : List PyVal} {i : ℕ} (h : i < xs.length) :
    ∃ x, pyIndex (.list xs) i = .ok x := by
  rcases hg : xs.get? i with _ | x
  · rw [List.get?_eq_none] at hg
    omega
  · refine ⟨x, ?_⟩
    unfold pyIndex
    dsimp only
    rw [hg]

/-- `parseOutcomeEntry` succeeds whenever the decoded prices and
token-ids are lists, and the market it produces has
`previous_price = ⊥`. -/
theorem parseOutcomeEntry_ok (oracle : String → Option ℚ) (mfs : List (String × PyVal))
    (ps cs : List PyVal) (p : ℕ × PyVal) :
    ∃ pm, parseOutcomeEntry oracle mfs (.list ps) (.list cs) p = .ok pm ∧
      pm.previous_price = Option.none := by
  unfold parseOutcomeEntry
  have hplen : pyLen (.list ps) = .ok ps.length := rfl
  have hclen : pyLen (.list cs) = .ok cs.length := rfl
  simp only [hplen, hclen, except_bind_ok]
  by_cases hpi : p.1 < ps.length
  · obtain ⟨pv, hpv⟩ := pyIndex_list_ok hpi
    rw [if_pos hpi]
    simp only [hpv, except_map_ok, except_bind_ok]
    by_cases hci : p.1 < cs.length
    · obtain ⟨cv, hcv⟩ := pyIndex_list_ok hci
      rw [if_pos hci]
      simp only [hcv, except_map_ok]
      exact ⟨_, rfl, rfl⟩
    · rw [if_neg hci]
      simp only [except_map_ok]
      exact ⟨_, rfl, rfl⟩
  · rw [if_neg hpi]
    simp only [except_bind_ok]
    by_cases hci : p.1 < cs.length
    · obtain ⟨cv, hcv⟩ := pyIndex_list_ok hci
      rw [if_pos hci]
      simp only [hcv, except_map_ok]
      exact ⟨_, rfl, rfl⟩
    · rw [if_neg hci]
      simp only [except_map_ok]
      exact ⟨_, rfl, rfl⟩

/-- `parseMarket` succeeds on a market object whose three
array-or-JSON-string fields decode to lists, and every market it
produces has `previous_price = ⊥`. -/
theorem parseMarket_ok (loads : String → Option PyVal) (oracle : String → Option ℚ)
    (mfs : List (String × PyVal))
    (ho : ∃ xs, parse_json_field loads (dget mfs "outcomes" (.list [])) = .list xs)
    (hp : ∃ xs, parse_json_field loads (dget mfs "outcomePrices" (.list [])) = .list xs)
    (hc : ∃ xs, parse_json_field loads (dget mfs "clobTokenIds" (.list [])) = .list xs) :
    ∃ ms, parseMarket loads oracle (.dict mfs) = .ok ms ∧
      ∀ pm ∈ ms, pm.previous_price = Option.none := by
  obtain ⟨outs, houts⟩ := ho
  obtain ⟨ps, hps⟩ := hp
  obtain ⟨cs, hcs⟩ := hc
  obtain ⟨pms, hpms, hP⟩ :=
    mapME_ok (parseOutcomeEntry oracle mfs (.list ps) (.list cs))
      (fun pm => pm.previous_price = Option.none) outs.enum
      (fun p _ => parseOutcomeEntry_ok oracle mfs ps cs p)
  refine ⟨pms, ?_, hP⟩
  unfold parseMarket
  dsimp only
  rw [houts, hps, hcs]
  rw [show pyIterList (.list outs) = .ok outs from rfl]
  rw [except_bind_ok]
  exact hpms

/-! ## Claim C1 -/

/-- C1 counterexample: `windowC1.is_valid` is true at time 10 although no
observation is still in the one-second window, refuting the claimed
equivalence between `is_valid` and the non-expired observation count. -/
theorem C1_counterexample :
    ¬ (windowC1.is_valid = true ↔
        windowC1.min_observations ≤ specInWindowCount windowC1 10) := by
  have h1 : windowC1.is_valid = true := by decide
  have h2 : specInWindowCount windowC1 10 = 0 := by
    norm_num [specInWindowCount, windowC1]
  intro h
  have := h.mp h1
  rw [h2] at this
  exact absurd this (by decide)

/-- C1 (amended): `is_valid` is equivalent to the *buffered* observation
count — expired entries that have not yet been evicted included —
reaching `min_observations`, and a window buffering fewer than
`min_observations` observations makes both the z-score and the MAD
detector emit nothing. -/
theorem C1_is_valid_buffered_count :
    (∀ w : RollingWindow, w.is_valid = true ↔ w.min_observations ≤ w.observations.length) ∧
    (∀ (now : ℚ) (stats : MarketStatistics) (threshold multiplier : ℚ)
        (metric window : String) (rw : RollingWindow),
        window_map stats metric window = some rw →
        rw.observations.length < rw.min_observations →
        detect_zscore_alert now stats threshold metric window = none ∧
        detect_mad_alert now stats multiplier metric window = none) := by
  constructor
  · intro w
    simp [RollingWindow.is_valid]
  · intro now stats threshold multiplier metric window rw hw hlt
    have hinv : rw.is_valid = false := by
      simp [RollingWindow.is_valid]; omega
    constructor
    · unfold detect_zscore_alert
      rw [hw]
      simp [hinv]
    · unfold detect_mad_alert
      rw [hw]
      simp [hinv]

/-- C1 witness: the empty-window statistics are below the observation
minimum, so both detectors stay silent. -/
theorem C1_witness :
    detect_zscore_alert 0 statsC1 3.5 "volume" "1h" = none ∧
    detect_mad_alert 0 statsC1 3 "volume" "1h" = none :=
  C1_is_valid_buffered_count.2 0 statsC1 3.5 3 "volume" "1h" statsC1.volume_1h
    rfl (by decide)

/-! ## Claim C2 -/

/-- C2 counterexample: the new market matches the prior one by
`(question, outcome)`, so the claim demands `previous_price = 0.5`; the
code matches by `(id, outcome)`, finds nothing, and leaves
`previous_price = ⊥`. -/
theorem C2_counterexample : ¬ specReconcileByQuestionHolds existingC2 newC2 := by
  intro h
  have hm := h { id := "b", question := "Q", outcome := "Yes" } (by decide)
  exact absurd hm (by decide)

/-- C2 (amended): reconciliation matches by `(id, outcome)` — the market
condition id, not the question.  Every parsed new market matched by
`(id, outcome)` takes the matched prior market's `current_price` as its
`previous_price`, every unmatched one keeps `previous_price = ⊥`, and
`lvr` is recomputed from the new volume and liquidity. -/
theorem C2_reconcile_by_id (existing new_markets : List MonitoredMarket)
    (hprev : ∀ nm ∈ new_markets, nm.previous_price = none) :
    update_prices_markets existing new_markets =
      new_markets.map (fun nm =>
        { nm with
          previous_price :=
            (existing_market_lookup existing (nm.id, nm.outcome)).bind
              MonitoredMarket.current_price
          lvr := calculate_lvr nm.volume_24h nm.liquidity }) := by
  unfold update_prices_markets
  apply List.map_congr_left
  intro nm hnm
  unfold reconcile_market
  rcases hl : existing_market_lookup existing (nm.id, nm.outcome) with _ | m
  · simp [hl, hprev nm hnm]
  · simp [hl]

/-- C2 witness: a matched market inherits the prior current price as its
previous price. -/
theorem C2_witness :
    update_prices_markets existingC2
        [{ id := "a", question := "Q", outcome := "Yes", current_price := some (7/10) }] =
      [{ id := "a", question := "Q", outcome := "Yes", current_price := some (7/10),
         previous_price := some (1/2) }] := by
  rw [C2_reconcile_by_id existingC2
      [{ id := "a", question := "Q", outcome := "Yes", current_price := some (7/10) }]
      (by decide)]
  rfl

/-! ## Claim C3 -/

/-- C3 counterexample: the detector marks `"e"` for removal — its
`all_closed` flag skips markets missing from the snapshot — although
none of the event's markets is closed in the new snapshot. -/
theorem C3_counterexample :
    "e" ∈ (detect_closed_markets 0 eventsC3 newDataC3).2 ∧
    ¬ specAllMarketsClosedInSnapshot
        { slug := "e", name := "E",
          markets := [{ id := "m", question := "Q", outcome := "Yes" }] } [] := by
  constructor
  · decide
  · intro h
    obtain ⟨am, ham, -⟩ :=
      h { id := "m", question := "Q", outcome := "Yes" } (by decide)
    exact absurd ham (by simp [api_market_lookup])

/-- C3 (amended): the detector alerts exactly on the open→closed
transitions of markets matched by question in the snapshot; it marks a
slug for removal iff the event is present in the snapshot, has at least
one market, and every market *matched in the snapshot* is closed there
(unmatched markets are skipped); and every marked slug is absent from
the events map after the cycle's removal step. -/
theorem C3_closed_transitions (now : ℚ) (events : List (String × MonitoredEvent))
    (new_data : List (String × List ApiMarket))
    (upd : String → MonitoredEvent → MonitoredEvent) :
    (∀ a, a ∈ (detect_closed_markets now events new_data).1 ↔
      ∃ slug event, (slug, event) ∈ events ∧
        ∃ api_markets, new_data.lookup slug = some api_markets ∧
        ∃ market ∈ event.markets, ∃ am,
          api_market_lookup api_markets market.question = some am ∧
          am.closed = true ∧ market.is_closed = false ∧
          a = { event_name := event.name, event_slug := slug,
                market_question := market.question, outcome := market.outcome,
                final_price := final_price_of market am, detected_at := now }) ∧
    (∀ slug, slug ∈ (detect_closed_markets now events new_data).2 ↔
      ∃ event, (slug, event) ∈ events ∧
        ∃ api_markets, new_data.lookup slug = some api_markets ∧
        event.markets ≠ [] ∧
        ∀ market ∈ event.markets, ∀ am,
          api_market_lookup api_markets market.question = some am → am.closed = true) ∧
    (∀ slug, slug ∈ (detect_closed_markets now events new_data).2 →
      ∀ p ∈ cycle_remaining_events now events new_data upd, p.1 ≠ slug) := by
  have halert : ∀ (slug : String) (event : MonitoredEvent) (ams : List ApiMarket) (a : ClosedEventAlert),
      a ∈ closed_alerts_for now slug event ams ↔
        ∃ market ∈ event.markets, ∃ am,
          api_market_lookup ams market.question = some am ∧
          am.closed = true ∧ market.is_closed = false ∧
          a = { event_name := event.name, event_slug := slug,
                market_question := market.question, outcome := market.outcome,
                final_price := final_price_of market am, detected_at := now } := by
    intro slug event ams a
    unfold closed_alerts_for
    rw [List.mem_filterMap]
    constructor
    · rintro ⟨market, hm, hf⟩
      refine ⟨market, hm, ?_⟩
      rcases hl : api_market_lookup ams market.question with _ | am
      · rw [hl] at hf
        exact absurd hf (by simp)
      · rw [hl] at hf
        dsimp only at hf
        by_cases hc : am.closed = true ∧ ¬ market.is_closed = true
        · rw [if_pos hc] at hf
          injection hf with hf
          exact ⟨am, rfl, hc.1, by simpa using hc.2, hf.symm⟩
        · rw [if_neg hc] at hf
          exact absurd hf (by simp)
    · rintro ⟨market, hm, am, hl, hc, ho, ha⟩
      refine ⟨market, hm, ?_⟩
      rw [hl]
      dsimp only
      rw [if_pos ⟨hc, by simp [ho]⟩, ha]
  have hrm : ∀ slug, slug ∈ (detect_closed_markets now events new_data).2 ↔
      ∃ event, (slug, event) ∈ events ∧
        ∃ api_markets, new_data.lookup slug = some api_markets ∧
        event.markets ≠ [] ∧
        ∀ market ∈ event.markets, ∀ am,
          api_market_lookup api_markets market.question = some am → am.closed = true := by
    intro slug
    unfold detect_closed_markets
    rw [List.mem_filterMap]
    constructor
    · rintro ⟨p, hp, hf⟩
      rcases hl : new_data.lookup p.1 with _ | ams
      · rw [hl] at hf
        exact absurd hf (by simp)
      · rw [hl] at hf
        dsimp only at hf
        by_cases hc : all_closed_for p.2 ams = true ∧ ¬ p.2.markets = []
        · rw [if_pos ⟨hc.1, hc.2⟩] at hf
          injection hf with hf
          subst hf
          refine ⟨p.2, by rwa [← Prod.mk.eta (p := p)] at hp, ams, hl, hc.2, ?_⟩
          intro market hm am ham
          have hall := (List.all_eq_true.mp hc.1) market hm
          rw [ham] at hall
          simpa using hall
        · rw [if_neg (by tauto)] at hf
          exact absurd hf (by simp)
    · rintro ⟨event, hev, ams, hl, hne, hclosed⟩
      have hall : all_closed_for event ams = true := by
        apply List.all_eq_true.mpr
        intro market hm
        rcases hql : api_market_lookup ams market.question with _ | am
        · simp [all_closed_for, hql]
        · have hc := hclosed market hm am hql
          simp [all_closed_for, hql, hc]
      refine ⟨(slug, event), hev, ?_⟩
      rw [hl]
      dsimp only
      rw [if_pos ⟨hall, hne⟩]
  refine ⟨?_, hrm, ?_⟩
  · intro a
    unfold detect_closed_markets
    rw [List.mem_flatMap]
    constructor
    · rintro ⟨p, hp, ha⟩
      rcases hl : new_data.lookup p.1 with _ | ams
      · rw [hl] at ha
        exact absurd ha (by simp)
      · rw [hl] at ha
        obtain ⟨market, hm, am, hql, hc, ho, haeq⟩ := (halert p.1 p.2 ams a).mp ha
        exact ⟨p.1, p.2, by rwa [← Prod.mk.eta (p := p)] at hp, ams, hl, market, hm, am,
          hql, hc, ho, haeq⟩
    · rintro ⟨slug, event, hev, ams, hl, market, hm, am, hql, hc, ho, haeq⟩
      refine ⟨(slug, event), hev, ?_⟩
      rw [hl]
      exact (halert slug event ams a).mpr ⟨market, hm, am, hql, hc, ho, haeq⟩
  · intro slug hslug p hp
    unfold cycle_remaining_events at hp
    obtain ⟨q, hq, rfl⟩ := List.mem_map.mp hp
    have hq' := List.mem_filter.mp hq
    intro hqe
    have hcontains := hq'.2
    simp only [decide_eq_true_eq, List.elem_iff] at hcontains
    dsimp only at hqe
    exact hcontains (by rw [hqe]; exact hslug)

/-- C3 witness: when the snapshot closes the event's only market, the
event's slug lands in the remove set. -/
theorem C3_witness : "ew" ∈ (detect_closed_markets 0 eventsC3w newDataC3w).2 :=
  ((C3_closed_transitions 0 eventsC3w newDataC3w (fun _ e => e)).2.1 "ew").mpr
    ⟨{ slug := "ew", name := "EW",
       markets := [{ id := "m", question := "Q", outcome := "Yes" }] },
     by decide, [amC3w], rfl, by decide, by
      intro market hm am ham
      rw [List.mem_singleton] at hm
      subst hm
      rw [show api_market_lookup [amC3w]
          ({ id := "m", question := "Q", outcome := "Yes" } : MonitoredMarket).question =
          some amC3w from rfl] at ham
      injection ham with ham
      rw [← ham]
      rfl⟩

/-! ## Claim C4 -/

/-- C4: liquidity warnings are gated on the cycle's spikes — every
warning matches some spike of the cycle on `(event, question, outcome)`
— and for a spike whose market is found by the lookup, a warning with
that spike's identity is emitted iff the market's `lvr` is present and
strictly exceeds the threshold. -/
theorem C4_liquidity_warning_gating (now : ℚ) (events : List MonitoredEvent)
    (spikes : List SpikeAlert) (lvr_threshold : ℚ) :
    (∀ w ∈ detect_all_liquidity_warnings now events spikes lvr_threshold,
      ∃ s ∈ spikes, w.event_name = s.event_name ∧
        w.market_question = s.market_question ∧ w.outcome = s.outcome) ∧
    (∀ s ∈ spikes, ∀ m en,
      market_lookup events (s.event_name, s.market_question, s.outcome) = some (m, en) →
      ((∃ w ∈ detect_all_liquidity_warnings now events spikes lvr_threshold,
          w.event_name = s.event_name ∧ w.market_question = s.market_question ∧
          w.outcome = s.outcome) ↔
        ∃ l, m.lvr = some l ∧ lvr_threshold < l)) := by
  have hfields : ∀ (s : SpikeAlert) (m : MonitoredMarket) (en : String) (w : LiquidityWarning),
      detect_liquidity_warning now m s lvr_threshold en = some w →
      w.event_name = en ∧ w.market_question = m.question ∧ w.outcome = m.outcome ∧
        ∃ l, m.lvr = some l ∧ lvr_threshold < l := by
    intro s m en w hw
    unfold detect_liquidity_warning at hw
    rcases hl : m.lvr with _ | l
    · rw [hl] at hw
      exact absurd hw (by simp)
    · rw [hl] at hw
      dsimp only at hw
      by_cases hle : l ≤ lvr_threshold
      · rw [if_pos hle] at hw
        exact absurd hw (by simp)
      · rw [if_neg hle] at hw
        injection hw with hw
        rw [← hw]
        exact ⟨rfl, rfl, rfl, l, rfl, lt_of_not_le hle⟩
  have hproduced : ∀ w, w ∈ detect_all_liquidity_warnings now events spikes lvr_threshold ↔
      ∃ s ∈ spikes, ∃ m en,
        market_lookup events (s.event_name, s.market_question, s.outcome) = some (m, en) ∧
        detect_liquidity_warning now m s lvr_threshold en = some w := by
    intro w
    unfold detect_all_liquidity_warnings
    rw [List.mem_filterMap]
    constructor
    · rintro ⟨s, hs, hfs⟩
      refine ⟨s, hs, ?_⟩
      rcases hml : market_lookup events (s.event_name, s.market_question, s.outcome)
        with _ | ⟨m, en⟩
      · rw [hml] at hfs
        exact absurd hfs (by simp)
      · rw [hml] at hfs
        exact ⟨m, en, rfl, hfs⟩
    · rintro ⟨s, hs, m, en, hml, hdw⟩
      exact ⟨s, hs, by rw [hml]; exact hdw⟩
  constructor
  · intro w hw
    obtain ⟨s, hs, m, en, hml, hdw⟩ := (hproduced w).mp hw
    obtain ⟨hen, hq, ho⟩ := market_lookup_fields hml
    dsimp only at hen hq ho
    obtain ⟨hwen, hwq, hwo, -⟩ := hfields s m en w hdw
    exact ⟨s, hs, by rw [hwen, hen], by rw [hwq, hq], by rw [hwo, ho]⟩
  · intro s hs m en hml
    constructor
    · rintro ⟨w, hw, hwen, hwq, hwo⟩
      obtain ⟨s', hs', m', en', hml', hdw'⟩ := (hproduced w).mp hw
      obtain ⟨hen', hq', ho'⟩ := market_lookup_fields hml'
      dsimp only at hen' hq' ho'
      obtain ⟨hwen', hwq', hwo', hlvr'⟩ := hfields s' m' en' w hdw'
      have hkey : (s'.event_name, s'.market_question, s'.outcome) =
          (s.event_name, s.market_question, s.outcome) := by
        have h1 : s'.event_name = s.event_name := by
          rw [← hen', ← hwen', hwen]
        have h2 : s'.market_question = s.market_question := by
          rw [← hq', ← hwq', hwq]
        have h3 : s'.outcome = s.outcome := by
          rw [← ho', ← hwo', hwo]
        rw [h1, h2, h3]
      rw [hkey, hml] at hml'
      injection hml' with hml''
      injection hml'' with hm' hen''
      rw [hm']
      exact hlvr'
    · rintro ⟨l, hl, hlt⟩
      have hdw : detect_liquidity_warning now m s lvr_threshold en =
          some { event_name := en
                 market_question := m.question
                 outcome := m.outcome
                 price_before := s.price_before
                 price_after := s.price_after
                 change_percent := s.change_percent
                 direction := s.direction
                 lvr := l
                 health_status := classify_lvr_health l
                 volume_24h := m.volume_24h
                 liquidity := m.liquidity
                 detected_at := now } := by
        unfold detect_liquidity_warning
        rw [hl]
        dsimp only
        rw [if_neg (not_le.mpr hlt)]
      obtain ⟨hen, hq, ho⟩ := market_lookup_fields hml
      dsimp only at hen hq ho
      refine ⟨_, (hproduced _).mpr ⟨s, hs, m, en, hml, hdw⟩, ?_, ?_, ?_⟩
      · exact hen
      · exact hq
      · exact ho

/-- C4 witness: the spiking market with LVR 10 above the threshold 8
receives a liquidity warning with the spike's identity. -/
theorem C4_witness :
    ∃ w ∈ detect_all_liquidity_warnings 0 eventsC4 [spikeC4] 8,
      w.event_name = spikeC4.event_name ∧ w.market_question = spikeC4.market_question ∧
      w.outcome = spikeC4.outcome :=
  ((C4_liquidity_warning_gating 0 eventsC4 [spikeC4] 8).2 spikeC4 (by decide)
      marketC4 "E" rfl).mpr ⟨10, rfl, by decide⟩

/-! ## Claim C5 -/

/-- C5: `should_alert` fires exactly when the cooldown is disabled, the
key is unknown, the cooldown has elapsed (equality allowed), or the
score has increased by at least the escalation threshold. -/
theorem C5_should_alert_iff (cm : CooldownManager) (now : ℚ) (key : String) (score : ℚ) :
    CooldownManager.should_alert cm now key score = true ↔
      (cm.cooldown_minutes = 0 ∨
        cm.entries.lookup key = none ∨
        ∃ entry, cm.entries.lookup key = some entry ∧
          (cm.cooldown_minutes ≤ (now - entry.last_alert_time) / 60 ∨
            cm.escalation_threshold ≤ score - entry.last_zscore)) := by
  unfold CooldownManager.should_alert
  by_cases h0 : cm.cooldown_minutes = 0
  · simp [h0]
  · rw [if_neg h0]
    rcases hl : cm.entries.lookup key with _ | entry
    · simp [h0, hl]
    · by_cases he : cm.cooldown_minutes ≤ (now - entry.last_alert_time) / 60
      · simp [h0, hl, he]
      · by_cases hesc : cm.escalation_threshold ≤ score - entry.last_zscore
        · simp [h0, hl, he, hesc]
        · simp [h0, hl, he, hesc]

/-! ## Claim C6 -/

/-- C6: under the data-model precondition that prices are non-negative,
the spike detector fires exactly when the market is open, the previous
price is present and non-zero, the current price is present, and the
unsigned percentage change reaches the threshold; the emitted alert
carries the unsigned change percent and direction `up` exactly on a
positive change. -/
theorem C6_spike_detector (now : ℚ) (market : MonitoredMarket) (threshold : ℚ)
    (hpos : ∀ p, market.previous_price = some p → 0 ≤ p) :
    ((detect_spike now market threshold).isSome ↔
      (market.is_closed = false ∧
        ∃ prev cur, market.previous_price = some prev ∧ prev ≠ 0 ∧
          market.current_price = some cur ∧ threshold ≤ |cur - prev| / prev * 100)) ∧
    (∀ a, detect_spike now market threshold = some a →
      ∃ prev cur, market.previous_price = some prev ∧ market.current_price = some cur ∧
        a.price_before = prev ∧ a.price_after = cur ∧
        a.change_percent = |cur - prev| / prev * 100 ∧
        a.direction = if prev < cur then "up" else "down") := by
  by_cases hc : market.is_closed
  · constructor
    · simp [detect_spike, hc]
    · intro a ha
      simp [detect_spike, hc] at ha
  · rcases hp : market.previous_price with _ | prev
    · constructor
      · simp [detect_spike, hc, hp]
      · intro a ha
        simp [detect_spike, hc, hp] at ha
    · rcases hcur : market.current_price with _ | cur
      · constructor
        · simp [detect_spike, hc, hp, hcur]
        · intro a ha
          simp [detect_spike, hc, hp, hcur] at ha
      · by_cases hz : prev = 0
        · constructor
          · simp [detect_spike, hc, hp, hcur, hz]
          · intro a ha
            simp [detect_spike, hc, hp, hcur, hz] at ha
        · have hppos : 0 < prev := lt_of_le_of_ne (hpos prev hp) (Ne.symm hz)
          have habs : |(cur - prev) / prev| * 100 = |cur - prev| / prev * 100 := by
            rw [abs_div, abs_of_pos hppos]
          by_cases ht : |(cur - prev) / prev| * 100 < threshold
          · constructor
            · simp only [detect_spike, hc, hp, hcur, hz, ht, if_pos, if_neg, Bool.false_eq_true,
                if_false]
              simp only [Option.isSome_none, Bool.false_eq_true, false_iff]
              rintro ⟨-, prev', cur', hp', hz', hcur', hth⟩
              injection hp' with h1
              injection hcur' with h2
              subst h1
              subst h2
              rw [← habs] at hth
              linarith
            · intro a ha
              simp [detect_spike, hc, hp, hcur, hz, ht] at ha
          · push_neg at ht
            constructor
            · simp only [detect_spike, hc, hp, hcur, hz]
              simp only [Bool.false_eq_true, if_false, if_neg (not_lt.mpr ht)]
              simp only [Option.isSome_some, true_iff]
              refine ⟨by simp [hc], prev, cur, rfl, hz, rfl, by rw [← habs]; exact ht⟩
            · intro a ha
              simp only [detect_spike, hc, hp, hcur, hz] at ha
              simp only [Bool.false_eq_true, if_false, if_neg (not_lt.mpr ht),
                Option.some.injEq] at ha
              refine ⟨prev, cur, rfl, rfl, ?_⟩
              rw [← ha]
              refine ⟨rfl, rfl, habs, ?_⟩
              by_cases hdir : 0 < cur - prev
              · rw [if_pos hdir, if_pos (by linarith)]
              · rw [if_neg hdir, if_neg (by intro h; exact hdir (by linarith))]

/-- C6 witness: the 0.50 → 0.60 move fires against a 5% threshold. -/
theorem C6_witness : (detect_spike 0 marketC6 5).isSome = true :=
  (C6_spike_detector 0 marketC6 5
      (fun p hp => by
        simp only [marketC6] at hp
        injection hp with h
        rw [← h]
        norm_num)).1.mpr
    ⟨rfl, 1/2, 3/5, rfl, by norm_num, rfl, by rw [abs_of_pos (by norm_num)]; norm_num⟩

/-! ## Claim C7 -/

/-- C7: the MAD-scaled z-score equals
`(current − median) / (1.4826 × MAD)` whenever the sample is non-empty
with non-zero MAD and is `⊥` otherwise; every constant sample has MAD
zero, an undefined z-score, and makes the z-score detector emit
nothing. -/
theorem C7_zscore_mad_contract :
    (∀ (current : ℚ) (xs : List ℚ), xs ≠ [] → calculate_mad xs ≠ 0 →
        calculate_zscore_mad current xs =
          some ((current - pyMedian xs) / (1.4826 * calculate_mad xs))) ∧
    (∀ (current : ℚ) (xs : List ℚ), xs = [] ∨ calculate_mad xs = 0 →
        calculate_zscore_mad current xs = none) ∧
    (∀ (xs : List ℚ) (c : ℚ), (∀ x ∈ xs, x = c) → calculate_mad xs = 0 ∧
        ∀ current, calculate_zscore_mad current xs = none) ∧
    (∀ (now : ℚ) (stats : MarketStatistics) (threshold : ℚ) (metric window : String)
        (rw : RollingWindow) (c : ℚ),
        window_map stats metric window = some rw →
        (∀ x ∈ rw.values now, x = c) →
        detect_zscore_alert now stats threshold metric window = none) := by
  refine ⟨?_, ?_, ?_, ?_⟩
  · intro current xs hne hmad
    unfold calculate_zscore_mad
    rw [if_neg hne, if_neg hmad]
  · intro current xs h
    rcases h with h | h
    · simp [calculate_zscore_mad, h]
    · unfold calculate_zscore_mad
      rcases eq_or_ne xs [] with hxs | hxs
      · simp [hxs]
      · rw [if_neg hxs, if_pos h]
  · intro xs c h
    exact ⟨calculate_mad_const h, calculate_zscore_mad_const h⟩
  · intro now stats threshold metric window rw c hw hconst
    unfold detect_zscore_alert
    rw [hw]
    by_cases hv : rw.is_valid
    · rcases hvals : rw.values now with _ | ⟨v, vs⟩
      · simp [hv, hvals]
      · have hz : calculate_zscore_mad ((rw.values now).getLastD 0) (rw.values now) = none :=
          calculate_zscore_mad_const hconst _
        simp only [hv, not_true_eq_false, if_false, hvals]
        rw [hvals] at hz
        simp only [List.getLastD_eq_getLast?] at hz
        simp [hz]
    · simp [hv]

/-- C7 witness: the all-threes window of the spec's scenario 5: its MAD
is zero, its z-score undefined, and the detector over a statistics
record holding it emits nothing. -/
theorem C7_witness :
    calculate_mad [3, 3, 3, 3, 3] = 0 ∧
    (∀ current, calculate_zscore_mad current [3, 3, 3, 3, 3] = none) :=
  C7_zscore_mad_contract.2.2.1 [3, 3, 3, 3, 3] 3 (by decide)

/-! ## Claim C8 -/

/-- C8 counterexample: with `cooldown_duration = 0` the claim demands the
removal of every entry with positive elapsed time, but `cleanup_stale`
returns immediately and keeps the five-minute-old entry. -/
theorem C8_counterexample : ¬ specCleanupStaleHolds cmC8 300 := by
  intro h
  unfold specCleanupStaleHolds cmC8 at h
  rw [CooldownManager.cleanup_stale] at h
  norm_num at h

/-- C8 (amended): with the cooldown disabled (`cooldown_duration = 0`)
`cleanup_stale` removes nothing; with a non-zero cooldown it removes
exactly the entries whose elapsed minutes strictly exceed
`2 × cooldown_duration`, all others staying unchanged. -/
theorem C8_cleanup_stale (cm : CooldownManager) (now : ℚ) :
    (cm.cooldown_minutes = 0 → cm.cleanup_stale now = cm) ∧
    (cm.cooldown_minutes ≠ 0 → (cm.entries.map Prod.fst).Nodup →
      (cm.cleanup_stale now).entries =
        cm.entries.filter
          (fun p => (now - p.2.last_alert_time) / 60 ≤ 2 * cm.cooldown_minutes)) := by
  constructor
  · intro h0
    simp [CooldownManager.cleanup_stale, h0]
  · intro h0 hnd
    unfold CooldownManager.cleanup_stale
    rw [if_neg h0]
    simp only []
    apply List.filter_congr
    intro p hp
    have hmemiff :
        p.1 ∈ (cm.entries.filter
            (fun q => cm.cooldown_minutes * 2 < (now - q.2.last_alert_time) / 60)).map Prod.fst ↔
          cm.cooldown_minutes * 2 < (now - p.2.last_alert_time) / 60 := by
      constructor
      · intro hmem
        obtain ⟨q, hq, hq1⟩ := List.mem_map.mp hmem
        have hq' := List.mem_filter.mp hq
        have heq : q = p := List.inj_on_of_nodup_map hnd hq'.1 hp hq1
        rw [← heq]
        simpa using hq'.2
      · intro hlt
        exact List.mem_map.mpr ⟨p, List.mem_filter.mpr ⟨hp, by simpa using hlt⟩, rfl⟩
    simp only [decide_eq_decide, List.elem_iff]
    rw [hmemiff]
    constructor
    · intro h
      have := not_lt.mp h
      linarith
    · intro h
      intro hlt
      linarith

/-- C8 witness: a thirty-minute cooldown manager whose only entry is
over an hour old loses it; the claim-side filter agrees. -/
theorem C8_witness :
    (CooldownManager.cleanup_stale
        { entries := [("k", { key := "k", last_alert_time := 0, last_zscore := 4 })]
          cooldown_minutes := 30
          escalation_threshold := 1 } 7200).entries = [] := by
  rw [(C8_cleanup_stale
      { entries := [("k", { key := "k", last_alert_time := 0, last_zscore := 4 })]
        cooldown_minutes := 30
        escalation_threshold := 1 } 7200).2 (by norm_num) (by simp)]
  norm_num

/-! ## Claim C9 -/

/-- C9 counterexample: one snapshot application takes the market
identified by `("m", "Yes")` from `is_closed = true` back to
`is_closed = false`, because the state simply mirrors the snapshot's
`closed` flag. -/
theorem C9_counterexample :
    ∃ nm ∈ update_prices_markets existingC9 newC9,
      ∃ m ∈ existingC9, m.id = nm.id ∧ m.outcome = nm.outcome ∧
        m.is_closed = true ∧ nm.is_closed = false := by decide

/-- C9 (amended): after a snapshot application the `is_closed` flags are
exactly the parsed snapshot's `closed` flags, so a closed market stays
closed precisely when the feed keeps reporting it closed: under a
monotone feed — every new market whose `(id, outcome)` matches a
previously closed market is reported closed — no market reverts from
closed to open. -/
theorem C9_closed_mirrors_snapshot (existing new_markets : List MonitoredMarket) :
    ((update_prices_markets existing new_markets).map MonitoredMarket.is_closed =
      new_markets.map MonitoredMarket.is_closed) ∧
    ((∀ nm ∈ new_markets, ∀ m,
        existing_market_lookup existing (nm.id, nm.outcome) = some m →
        m.is_closed = true → nm.is_closed = true) →
      ∀ nm ∈ update_prices_markets existing new_markets, ∀ m,
        existing_market_lookup existing (nm.id, nm.outcome) = some m →
        m.is_closed = true → nm.is_closed = true) := by
  have hfields : ∀ nm : MonitoredMarket,
      (reconcile_market existing nm).id = nm.id ∧
      (reconcile_market existing nm).outcome = nm.outcome ∧
      (reconcile_market existing nm).is_closed = nm.is_closed := by
    intro nm
    unfold reconcile_market
    rcases existing_market_lookup existing (nm.id, nm.outcome) with _ | m <;> simp
  constructor
  · unfold update_prices_markets
    rw [List.map_map]
    apply List.map_congr_left
    intro nm _
    exact (hfields nm).2.2
  · intro hmono nm' hnm' m hl hml
    obtain ⟨nm, hnm, rfl⟩ := List.mem_map.mp hnm'
    rw [(hfields nm).2.2]
    rw [(hfields nm).1, (hfields nm).2.1] at hl
    exact hmono nm hnm m hl hml

/-- C9 witness: under a snapshot that keeps reporting the market closed,
the reconciled market is still closed. -/
theorem C9_witness :
    ∃ nm ∈ update_prices_markets existingC9 newC9closed, nm.is_closed = true := by
  refine ⟨{ id := "m", question := "Q", outcome := "Yes", current_price := some 1,
            previous_price := some 1, is_closed := true }, by decide, ?_⟩
  exact (C9_closed_mirrors_snapshot existingC9 newC9closed).2 (by decide)
    { id := "m", question := "Q", outcome := "Yes", current_price := some 1,
      previous_price := some 1, is_closed := true } (by decide)
    { id := "m", question := "Q", outcome := "Yes", current_price := some 1,
      is_closed := true } (by decide) (by decide)

/-! ## Claim C10 -/

/-- C10 counterexample: iterating the non-iterable `markets` value
raises `TypeError`, so parsing does not return normally. -/
theorem C10_counterexample :
    ¬ ∃ ev, parse_event_response loadsFail oracleFail docC10bad = Except.ok ev := by
  rintro ⟨ev, hev⟩
  rw [show parse_event_response loadsFail oracleFail docC10bad =
      Except.error PyErr.typeError from rfl] at hev
  exact Except.noConfusion hev

/-- C10 (amended): on documents of the documented shapes — `markets` an
array of objects, and each object's `outcomes`, `outcomePrices` and
`clobTokenIds` fields arrays, JSON-strings decoding to arrays, strings
failing to decode, or other values defaulting to empty — parsing and
snapshot application return normally, every parsed market starting with
`previous_price = ⊥` (numeric fields that fail conversion are `⊥` by
construction of the conversion). -/
theorem C10_parse_totality (loads : String → Option PyVal) (oracle : String → Option ℚ)
    (fs : List (String × PyVal)) (ms : List PyVal)
    (hms : dget fs "markets" (.list []) = .list ms)
    (hgood : ∀ md ∈ ms, ∃ mfs, md = .dict mfs ∧
      (∃ xs, parse_json_field loads (dget mfs "outcomes" (.list [])) = .list xs) ∧
      (∃ xs, parse_json_field loads (dget mfs "outcomePrices" (.list [])) = .list xs) ∧
      (∃ xs, parse_json_field loads (dget mfs "clobTokenIds" (.list [])) = .list xs)) :
    (∃ ev, parse_event_response loads oracle (.dict fs) = .ok ev ∧
      ∀ pm ∈ ev.markets, pm.previous_price = Option.none) ∧
    (∀ lookupById, ∃ res, update_prices_p loads oracle lookupById (.dict fs) = .ok res) := by
  have hmarkets : ∀ md ∈ ms, ∃ pms, parseMarket loads oracle md = .ok pms ∧
      ∀ pm ∈ pms, pm.previous_price = Option.none := by
    intro md hmd
    obtain ⟨mfs, rfl, ho, hp, hc⟩ := hgood md hmd
    exact parseMarket_ok loads oracle mfs ho hp hc
  obtain ⟨mlists, hmlists, hPl⟩ :=
    mapME_ok (parseMarket loads oracle)
      (fun pms => ∀ pm ∈ pms, pm.previous_price = Option.none) ms hmarkets
  have hparse : parse_event_response loads oracle (.dict fs) =
      .ok { slug := dget fs "slug" (.str "")
            name := dget fs "title" (.str "")
            markets := mlists.flatten } := by
    show (pyIterList (dget fs "markets" (.list []))).bind
        (fun market_items =>
          Except.map (fun market_lists =>
            ({ slug := dget fs "slug" (.str "")
               name := dget fs "title" (.str "")
               markets := market_lists.flatten } : PEvent))
            (mapME (parseMarket loads oracle) market_items)) = _
    rw [hms]
    rw [show pyIterList (.list ms) = .ok ms from rfl, except_bind_ok]
    rw [hmlists, except_map_ok]
  constructor
  · refine ⟨_, hparse, ?_⟩
    intro pm hpm
    obtain ⟨pms, hpms, hpm2⟩ := List.mem_flatten.mp hpm
    exact hPl pms hpms pm hpm2
  · intro lookupById
    refine ⟨(mlists.flatten).map (reconcile_pmarket lookupById), ?_⟩
    unfold update_prices_p
    rw [hparse, except_map_ok]

/-- C10 witness: the document with decodable outcomes, a malformed
prices payload and a malformed volume parses normally, with every
parsed market starting at `previous_price = ⊥`. -/
theorem C10_witness :
    ∃ ev, parse_event_response loadsC10 oracleFail docC10good = Except.ok ev ∧
      ∀ pm ∈ ev.markets, pm.previous_price = Option.none :=
  (C10_parse_totality loadsC10 oracleFail
      [("slug", .str "e"), ("title", .str "T"),
       ("markets", .list [ .dict [
          ("conditionId", .str "c1"),
          ("question", .str "Q"),
          ("outcomes", .str "[\"Yes\", \"No\"]"),
          ("outcomePrices", .str "oops"),
          ("clobTokenIds", .list [.str "t1", .str "t2"]),
          ("closed", .bool false),
          ("volume24hr", .str "notanumber"),
          ("liquidityNum", .num 50) ] ])]
      [.dict [
          ("conditionId", .str "c1"),
          ("question", .str "Q"),
          ("outcomes", .str "[\"Yes\", \"No\"]"),
          ("outcomePrices", .str "oops"),
          ("clobTokenIds", .list [.str "t1", .str "t2"]),
          ("closed", .bool false),
          ("volume24hr", .str "notanumber"),
          ("liquidityNum", .num 50) ]]
      rfl
      (by
        intro md hmd
        rw [List.mem_singleton] at hmd
        subst hmd
        refine ⟨_, rfl, ⟨[.str "Yes", .str "No"], rfl⟩, ⟨[], rfl⟩,
          ⟨[.str "t1", .str "t2"], rfl⟩⟩)).1

end Polybotz
